import Mathlib

/-!
Verification of the island-cropping script (crop-islands.py).

The script loads an RGBA map image, and for each named region of a hardcoded
table computes clamped crop bounds, extracts the crop, estimates the ocean
color as the per-channel median of an edge-sampled border population, makes
every pixel whose RGB Euclidean distance to that color is below 42
transparent, blurs the alpha channel, and saves the result.

Shallow embedding notes.
* An image is a list of rows of RGBA pixels with natural-number channels
  (the script works on uint8 data, values 0..255).
* The script computes the color distance in float32 as
  sqrt((R-mr)^2 + (G-mg)^2 + (B-mb)^2) < 42, where the median components
  are integers or half-integers.  All quantities involved (differences,
  their squares, the three-term sum) are exactly representable in float32,
  and float32 sqrt is correctly rounded and monotone with 42 = sqrt(1764)
  exactly representable, so the float32 test is exactly equivalent to the
  exact-arithmetic test (R-mr)^2 + (G-mg)^2 + (B-mb)^2 < 1764.  Scaling by
  4 clears the half-integers: the embedding uses integer arithmetic on
  doubled channel values and compares against 4 * 1764 = 7056.
* numpy slice semantics are modelled exactly; in particular a[-b:] with
  b = 0 is the whole list and a[b:-b] with b = 0 is empty.
* The PIL Gaussian alpha blur is kept abstract as a parameter
  blur : List (List Nat) -> List (List Nat) on the alpha plane; the script
  always calls it with a fixed radius, and every claim treated here is
  independent of the kernel actually used.
-/

/-- One RGBA pixel, channels as natural numbers (uint8 data, 0..255). -/
structure Pixel where
  r : Nat
  g : Nat
  b : Nat
  a : Nat
deriving DecidableEq, Repr

/-- An image is a list of rows of pixels (row-major, like the numpy array). -/
abbrev Image := List (List Pixel)

/-- One entry of the ISLANDS table: name and
(center x, center y, half width, half height), integers as in the script. -/
structure Region where
  name : String
  cx : Int
  cy : Int
  hw : Int
  hh : Int
deriving DecidableEq, Repr

/-- The RGB part of a pixel (the script samples arr[..., :3]). -/
def rgbOf (p : Pixel) : Nat × Nat × Nat :=
  (p.r, p.g, p.b)

/-- The image with every pixel replaced by its RGB triple (arr[:, :, :3]). -/
def rgbGrid (rows : Image) : List (List (Nat × Nat × Nat)) :=
  rows.map (fun row => row.map rgbOf)

/-- Width of a row-major grid: length of the first row (numpy arr.shape[1];
0 for an empty grid). -/
def width {α : Type} (rows : List (List α)) : Nat :=
  (rows.headD []).length

/-- Python slice a[-b:]: the last b elements, except that b = 0 yields the
whole list because -0 = 0 in Python. -/
def takeLastPy {α : Type} (b : Nat) (l : List α) : List α :=
  if b = 0 then l else l.drop (l.length - b)

/-- Python slice a[b:-b]: elements b .. length-b, empty when b = 0 because
the slice a[0:-0] is a[0:0]. -/
def midSlicePy {α : Type} (b : Nat) (l : List α) : List α :=
  if b = 0 then [] else (l.drop b).take (l.length - 2 * b)

/-- Border width used for edge sampling: b = min(8, h // 4, w // 4). -/
def borderWidth (h w : Nat) : Nat :=
  min 8 (min (h / 4) (w / 4))

/-- Top edge group: arr[:b] flattened row-major. -/
def topRowsSample {α : Type} (b : Nat) (rows : List (List α)) : List α :=
  (rows.take b).flatten

/-- Bottom edge group: arr[-b:] flattened row-major. -/
def botRowsSample {α : Type} (b : Nat) (rows : List (List α)) : List α :=
  (takeLastPy b rows).flatten

/-- Left edge group: arr[b:-b, :b] flattened row-major. -/
def leftColsSample {α : Type} (b : Nat) (rows : List (List α)) : List α :=
  ((midSlicePy b rows).map (List.take b)).flatten

/-- Right edge group: arr[b:-b, -b:] flattened row-major. -/
def rightColsSample {α : Type} (b : Nat) (rows : List (List α)) : List α :=
  ((midSlicePy b rows).map (takeLastPy b)).flatten

/-- The edge-sampled population, as concatenated by np.concatenate in the
script: top rows, bottom rows, left columns, right columns. -/
def edgeSample {α : Type} (rows : List (List α)) : List α :=
  let b := borderWidth rows.length (width rows)
  topRowsSample b rows ++ botRowsSample b rows ++
    leftColsSample b rows ++ rightColsSample b rows

/-- The RGB border population of a crop (edge_pixels in the script). -/
def edgePixels (rows : Image) : List (Nat × Nat × Nat) :=
  edgeSample (rgbGrid rows)

/-- Insert into a sorted list of naturals (helper for sorting). -/
def insertSorted (x : Nat) : List Nat → List Nat
  | [] => [x]
  | y :: ys => if x ≤ y then x :: y :: ys else y :: insertSorted x ys

/-- Insertion sort on naturals (only the sorted order matters for medians). -/
def sortNat : List Nat → List Nat
  | [] => []
  | x :: xs => insertSorted x (sortNat xs)

/-- Twice the numpy median of a list of naturals: for odd length twice the
middle element of the sorted list, for even length the sum of the two middle
elements (np.median averages them, so this is exact without fractions).
On the empty list this returns 0; numpy would produce NaN there, but the
script never takes the median of an empty population (see the C5 theorem). -/
def median2 (l : List Nat) : Nat :=
  let s := sortNat l
  let n := s.length
  if n % 2 = 1 then 2 * s.getD (n / 2) 0
  else s.getD (n / 2 - 1) 0 + s.getD (n / 2) 0

/-- Twice the estimated ocean color: per-channel doubled median of the edge
population (ocean_color in the script, scaled by 2 to stay in Nat). -/
def oceanColor2 (rows : Image) : Nat × Nat × Nat :=
  let es := edgePixels rows
  (median2 (es.map (fun t => t.1)),
   median2 (es.map (fun t => t.2.1)),
   median2 (es.map (fun t => t.2.2)))

/-- Four times the squared RGB distance from pixel p to the half-integer
color m2 / 2: the summands are (2 * channel - m2 component) squared. -/
def distSq2 (p : Pixel) (m2 : Nat × Nat × Nat) : Int :=
  let dr : Int := 2 * (p.r : Int) - (m2.1 : Int)
  let dg : Int := 2 * (p.g : Int) - (m2.2.1 : Int)
  let db : Int := 2 * (p.b : Int) - (m2.2.2 : Int)
  dr * dr + dg * dg + db * db

/-- The background test of the script for one pixel: Euclidean RGB distance
to the estimated ocean color strictly below 42, rendered exactly as
4 * distance^2 < 4 * 42^2 = 7056. -/
def isOceanPixel (rows : Image) (p : Pixel) : Bool :=
  decide (distSq2 p (oceanColor2 rows) < 7056)

/-- Squared Euclidean RGB distance over the rationals from a pixel to an
estimated color given as a rational RGB triple. -/
def rgbDistSq (p : Pixel) (m : ℚ × ℚ × ℚ) : ℚ :=
  ((p.r : ℚ) - m.1) ^ 2 + ((p.g : ℚ) - m.2.1) ^ 2 + ((p.b : ℚ) - m.2.2) ^ 2

/-- The estimated ocean color as exact rationals (halving the doubled
medians), matching the float value the script computes. -/
def oceanColorQ (rows : Image) : ℚ × ℚ × ℚ :=
  ((oceanColor2 rows).1 / 2, (oceanColor2 rows).2.1 / 2, (oceanColor2 rows).2.2 / 2)

/-- Background removal before the alpha blur: pixels within distance 42 of
the estimated ocean color get alpha 0, all other pixels are unchanged. -/
def removeOceanPreBlur (rows : Image) : Image :=
  let m := oceanColor2 rows
  rows.map (fun row => row.map (fun p =>
    if distSq2 p m < 7056 then { p with a := 0 } else p))

/-- The alpha plane of an image (result.split()[3]). -/
def alphaPlane (rows : Image) : List (List Nat) :=
  rows.map (fun row => row.map Pixel.a)

/-- result.putalpha(plane): replace the alpha channel pointwise, keeping the
color channels (for equally sized planes, as in the script). -/
def putAlpha (rows : Image) (plane : List (List Nat)) : Image :=
  List.zipWith (fun row arow =>
    List.zipWith (fun p v => { p with a := v }) row arow) rows plane

/-- remove_ocean: background removal followed by an alpha-only blur, the
blur kernel abstracted as a function on the alpha plane. -/
def removeOcean (blur : List (List Nat) → List (List Nat)) (rows : Image) : Image :=
  let pre := removeOceanPreBlur rows
  putAlpha pre (blur (alphaPlane pre))

/-- x1 = max(0, cx - hw). -/
def cropX1 (r : Region) : Int :=
  max 0 (r.cx - r.hw)

/-- y1 = max(0, cy - hh). -/
def cropY1 (r : Region) : Int :=
  max 0 (r.cy - r.hh)

/-- x2 = min(W, cx + hw). -/
def cropX2 (W : Int) (r : Region) : Int :=
  min W (r.cx + r.hw)

/-- y2 = min(H, cy + hh). -/
def cropY2 (H : Int) (r : Region) : Int :=
  min H (r.cy + r.hh)

/-- Crop width x2 - x1. -/
def cropW (W : Int) (r : Region) : Int :=
  cropX2 W r - cropX1 r

/-- Crop height y2 - y1. -/
def cropH (H : Int) (r : Region) : Int :=
  cropY2 H r - cropY1 r

/-- img.crop((x1, y1, x2, y2)): rows y1 .. y2, columns x1 .. x2, with the
clamped bounds computed from the image extent as in the script. -/
def cropImage (img : Image) (r : Region) : Image :=
  let W : Int := (width img : Int)
  let H : Int := (img.length : Int)
  ((img.drop (cropY1 r).toNat).take (cropH H r).toNat).map
    (fun row => (row.drop (cropX1 r).toNat).take (cropW W r).toNat)

/-- Processing of one region: crop, then remove_ocean. -/
def processRegion (blur : List (List Nat) → List (List Nat))
    (img : Image) (r : Region) : Image :=
  removeOcean blur (cropImage img r)

/-- The per-region outputs of the main loop, in table order: each region
unconditionally contributes the pair (name, processed crop). -/
def pipelineOutputs (blur : List (List Nat) → List (List Nat))
    (img : Image) (regions : List Region) : List (String × Image) :=
  regions.map (fun r => (r.name, processRegion blur img r))

/-- The hardcoded 17-entry ISLANDS table of the script. -/
def ISLANDS : List Region :=
  [⟨"northern-caves", 660, 246, 400, 300⟩,
   ⟨"sunstone-island", 991, 553, 320, 250⟩,
   ⟨"statue-of-sovereignty", 2092, 660, 180, 230⟩,
   ⟨"the-laboratory", 1816, 830, 180, 160⟩,
   ⟨"the-arch", 2862, 676, 220, 220⟩,
   ⟨"birch-cay", 3192, 369, 260, 220⟩,
   ⟨"mushgrove-swamp", 4293, 369, 560, 420⟩,
   ⟨"harvesters-spike", 1211, 1352, 210, 250⟩,
   ⟨"roslit-bay", 881, 1290, 460, 360⟩,
   ⟨"moosewood", 2312, 1290, 600, 420⟩,
   ⟨"lushgrove", 3082, 860, 320, 270⟩,
   ⟨"earmark-island", 3082, 1475, 200, 160⟩,
   ⟨"cursed-isle", 3633, 1536, 430, 360⟩,
   ⟨"forsaken-shores", 660, 1997, 530, 430⟩,
   ⟨"terrapin-island", 2092, 2089, 600, 440⟩,
   ⟨"snowcap-island", 4128, 1997, 580, 460⟩,
   ⟨"ancient-isle", 5229, 1075, 360, 400⟩]

/-- The border population as the spec sentence describes it, with no
degenerate-slice special case: top b rows, bottom b rows, and the left and
right b columns over rows b .. h - b only. -/
def edgeSampleSpec {α : Type} (rows : List (List α)) : List α :=
  let b := borderWidth rows.length (width rows)
  let mid := (rows.drop b).take (rows.length - 2 * b)
  (rows.take b).flatten ++ (rows.drop (rows.length - b)).flatten ++
    (mid.map (List.take b)).flatten ++
    (mid.map (fun row => row.drop (row.length - b))).flatten

/-- The RGB border population of a crop as the spec sentence describes it. -/
def edgePixelsSpec (rows : Image) : List (Nat × Nat × Nat) :=
  edgeSampleSpec (rgbGrid rows)

/-- Pixel position lookup: row y, column x, None outside the image. -/
def getPixel (rows : Image) (y x : Nat) : Option Pixel :=
  rows[y]?.bind (fun row => row[x]?)

/-- Examples used as concrete inputs in witnesses and counterexamples. -/
def exampleCrop1 : Image := [[⟨200, 200, 200, 255⟩]]

def exampleCrop3 : Image :=
  [[⟨1, 1, 1, 255⟩, ⟨2, 2, 2, 255⟩, ⟨3, 3, 3, 255⟩],
   [⟨4, 4, 4, 255⟩, ⟨5, 5, 5, 255⟩, ⟨6, 6, 6, 255⟩],
   [⟨7, 7, 7, 255⟩, ⟨8, 8, 8, 255⟩, ⟨9, 9, 9, 255⟩]]

def exampleCrop4 : Image :=
  [[⟨100, 100, 100, 255⟩, ⟨100, 100, 100, 255⟩, ⟨100, 100, 100, 255⟩, ⟨100, 100, 100, 255⟩],
   [⟨100, 100, 100, 255⟩, ⟨250, 10, 10, 255⟩, ⟨100, 100, 100, 255⟩, ⟨100, 100, 100, 255⟩],
   [⟨100, 100, 100, 255⟩, ⟨100, 100, 100, 255⟩, ⟨100, 100, 100, 255⟩, ⟨100, 100, 100, 255⟩],
   [⟨100, 100, 100, 255⟩, ⟨100, 100, 100, 255⟩, ⟨100, 100, 100, 255⟩, ⟨100, 100, 100, 255⟩]]

def exampleCrop4Alpha : Image :=
  [[⟨100, 100, 100, 128⟩, ⟨100, 100, 100, 3⟩, ⟨100, 100, 100, 128⟩, ⟨100, 100, 100, 128⟩],
   [⟨100, 100, 100, 0⟩, ⟨250, 10, 10, 77⟩, ⟨100, 100, 100, 128⟩, ⟨100, 100, 100, 128⟩],
   [⟨100, 100, 100, 128⟩, ⟨100, 100, 100, 128⟩, ⟨100, 100, 100, 9⟩, ⟨100, 100, 100, 128⟩],
   [⟨100, 100, 100, 128⟩, ⟨100, 100, 100, 128⟩, ⟨100, 100, 100, 128⟩, ⟨100, 100, 100, 1⟩]]

def exampleImg2 : Image :=
  [[⟨10, 10, 10, 255⟩, ⟨20, 20, 20, 255⟩], [⟨30, 30, 30, 255⟩, ⟨40, 40, 40, 255⟩]]

def regionFar : Region := ⟨"far", 100, 100, 10, 10⟩

def regionOrigin : Region := ⟨"origin", 0, 0, 50, 50⟩

def regionDegenerate : Region := ⟨"empty", 1, 1, 0, 1⟩

def regionMid : Region := ⟨"mid", 1, 1, 1, 1⟩

def regionA : Region := ⟨"a", 1, 1, 1, 1⟩

def regionB : Region := ⟨"b", 0, 0, 1, 1⟩

/-- Lookup through the double map that removeOceanPreBlur performs. -/
lemma getPixel_map_rows (f : Pixel → Pixel) (rows : Image) (y x : Nat) :
    getPixel (rows.map (fun row => row.map f)) y x = (getPixel rows y x).map f := by
  unfold getPixel
  rw [List.getElem?_map]
  cases h : rows[y]? with
  | none => rfl
  | some row => simp [List.getElem?_map]

/-- Decomposition of a successful lookup in a zipWith. -/
lemma getElem?_zipWith_some {α β γ : Type} (f : α → β → γ) (l1 : List α)
    (l2 : List β) (n : Nat) (c : γ)
    (h : (List.zipWith f l1 l2)[n]? = some c) :
    ∃ a b, l1[n]? = some a ∧ l2[n]? = some b ∧ c = f a b := by
  induction l1 generalizing l2 n with
  | nil => simp at h
  | cons a as ih =>
    cases l2 with
    | nil => simp at h
    | cons b bs =>
      cases n with
      | zero =>
        refine ⟨a, b, by simp, by simp, ?_⟩
        simpa using h.symm
      | succ m =>
        simp only [List.zipWith_cons_cons, List.getElem?_cons_succ] at h ⊢
        exact ih bs m h

/-- A flatten with a nonempty member is nonempty. -/
lemma flatten_ne_nil {α : Type} (L : List (List α)) (l : List α)
    (hl : l ∈ L) (hne : l ≠ []) : L.flatten ≠ [] := by
  intro h
  exact hne (List.flatten_eq_nil_iff.mp h l hl)

/-- The integer test 4 d2 < 7056 is exactly the rational Euclidean test
d2 < 1764, i.e. distance strictly below 42, at the halved color. -/
lemma distSq2_iff_rgbDistSq (p : Pixel) (m2 : Nat × Nat × Nat) :
    distSq2 p m2 < 7056 ↔
      rgbDistSq p ((m2.1 : ℚ) / 2, (m2.2.1 : ℚ) / 2, (m2.2.2 : ℚ) / 2) < 1764 := by
  have key : ((distSq2 p m2 : Int) : ℚ)
      = 4 * rgbDistSq p ((m2.1 : ℚ) / 2, (m2.2.1 : ℚ) / 2, (m2.2.2 : ℚ) / 2) := by
    simp only [distSq2, rgbDistSq]
    push_cast
    ring
  constructor
  · intro h
    have h2 : ((distSq2 p m2 : Int) : ℚ) < 7056 := by exact_mod_cast h
    rw [key] at h2
    linarith
  · intro h
    have h2 : ((distSq2 p m2 : Int) : ℚ) < 7056 := by
      rw [key]
      linarith
    exact_mod_cast h2

/-- C1: for every crop, a pixel is classified background exactly when its
Euclidean RGB distance to the estimated ocean color is strictly below 42;
classified pixels get alpha 0 and all other pixels keep their alpha
unchanged before the blur. -/
theorem C1_background_classification (rows : Image) (y x : Nat) (p : Pixel)
    (hp : getPixel rows y x = some p) :
    getPixel (removeOceanPreBlur rows) y x =
      some (if isOceanPixel rows p then { p with a := 0 } else p) ∧
    ((isOceanPixel rows p = true) ↔ rgbDistSq p (oceanColorQ rows) < 1764) := by
  constructor
  · have h1 : removeOceanPreBlur rows
        = rows.map (fun row => row.map (fun q =>
            if distSq2 q (oceanColor2 rows) < 7056 then { q with a := 0 } else q)) := rfl
    rw [h1, getPixel_map_rows, hp]
    simp [isOceanPixel]
  · rw [show oceanColorQ rows
        = (((oceanColor2 rows).1 : ℚ) / 2, ((oceanColor2 rows).2.1 : ℚ) / 2,
           ((oceanColor2 rows).2.2 : ℚ) / 2) from rfl]
    rw [← distSq2_iff_rgbDistSq]
    simp [isOceanPixel]

/-- C1 witness: concrete evaluation on a 4 by 4 crop at the red pixel. -/
theorem C1_background_classification_witness :
    getPixel exampleCrop4 1 1 = some ⟨250, 10, 10, 255⟩ ∧
    (getPixel (removeOceanPreBlur exampleCrop4) 1 1 =
      some (if isOceanPixel exampleCrop4 ⟨250, 10, 10, 255⟩
            then { (⟨250, 10, 10, 255⟩ : Pixel) with a := 0 }
            else ⟨250, 10, 10, 255⟩) ∧
     ((isOceanPixel exampleCrop4 ⟨250, 10, 10, 255⟩ = true) ↔
       rgbDistSq ⟨250, 10, 10, 255⟩ (oceanColorQ exampleCrop4) < 1764)) :=
  ⟨by decide, C1_background_classification exampleCrop4 1 1 ⟨250, 10, 10, 255⟩ (by decide)⟩

/-- rgbGrid preserves the number of rows. -/
lemma length_rgbGrid (rows : Image) : (rgbGrid rows).length = rows.length := by
  simp [rgbGrid]

/-- rgbGrid preserves the width. -/
lemma width_rgbGrid (rows : Image) : width (rgbGrid rows) = width rows := by
  cases rows with
  | nil => rfl
  | cons r rest => simp [rgbGrid, width]

/-- With a positive border width the edge sampling agrees with the spec
description of the population. -/
lemma edgeSample_eq_spec {α : Type} (rows : List (List α))
    (hb : borderWidth rows.length (width rows) ≠ 0) :
    edgeSample rows = edgeSampleSpec rows := by
  have hfun : takeLastPy (α := α) (borderWidth rows.length (width rows))
      = fun row => row.drop (row.length - borderWidth rows.length (width rows)) := by
    funext l
    simp [takeLastPy, if_neg hb]
  simp only [edgeSample, edgeSampleSpec, topRowsSample, botRowsSample,
    leftColsSample, rightColsSample, hfun, takeLastPy, midSlicePy, if_neg hb]

/-- C2 counterexample: on a 1 by 1 crop the border width is 0 and the
population the spec describes is empty (its median is undefined), while the
script, through the numpy slice arr[-0:] being the whole array, samples the
whole crop and gets a well-defined color. -/
theorem C2_counterexample :
    edgePixels exampleCrop1 ≠ edgePixelsSpec exampleCrop1 ∧
    edgePixelsSpec exampleCrop1 = [] ∧
    edgePixels exampleCrop1 = [(200, 200, 200)] ∧
    oceanColor2 exampleCrop1 = (400, 400, 400) := by
  decide

/-- C2 amended: for every crop at least 4 pixels tall and wide (so that the
border width b is at least 1), the background estimate is the per-channel
median over exactly the population the claim describes: top b rows, bottom
b rows, and left and right b columns over the rows b .. h - b. -/
theorem C2_border_median (rows : Image) (h4 : 4 ≤ rows.length)
    (w4 : 4 ≤ width rows) :
    edgePixels rows = edgePixelsSpec rows ∧
    oceanColor2 rows =
      (median2 ((edgePixelsSpec rows).map (fun t => t.1)),
       median2 ((edgePixelsSpec rows).map (fun t => t.2.1)),
       median2 ((edgePixelsSpec rows).map (fun t => t.2.2))) := by
  have hb : borderWidth (rgbGrid rows).length (width (rgbGrid rows)) ≠ 0 := by
    rw [length_rgbGrid, width_rgbGrid]
    unfold borderWidth
    omega
  have h := edgeSample_eq_spec (rgbGrid rows) hb
  have h2 : edgePixels rows = edgePixelsSpec rows := h
  refine ⟨h2, ?_⟩
  rw [oceanColor2, h2]

/-- C2 witness: concrete evaluation on a 4 by 4 crop. -/
theorem C2_border_median_witness :
    4 ≤ exampleCrop4.length ∧ 4 ≤ width exampleCrop4 ∧
    (edgePixels exampleCrop4 = edgePixelsSpec exampleCrop4 ∧
     oceanColor2 exampleCrop4 =
       (median2 ((edgePixelsSpec exampleCrop4).map (fun t => t.1)),
        median2 ((edgePixelsSpec exampleCrop4).map (fun t => t.2.1)),
        median2 ((edgePixelsSpec exampleCrop4).map (fun t => t.2.2)))) :=
  ⟨by decide, by decide, C2_border_median exampleCrop4 (by decide) (by decide)⟩

/-- C3 counterexample: for the region with center (100, 100) and half extent
10 on a source image of width 50 and height 50, the computed bounds have
x1 = 90 and x2 = 50, so the claimed chain 0 <= x1 <= x2 <= W fails: the
claim does not hold for arbitrary regions, the region rectangle has to meet
the image extent. -/
theorem C3_counterexample :
    ¬ (0 ≤ cropX1 regionFar ∧ cropX1 regionFar ≤ cropX2 50 regionFar ∧
       cropX2 50 regionFar ≤ 50) := by
  decide

/-- C3 amended: for every region whose rectangle meets the image extent
(half extents nonnegative, cx + hw and cy + hh nonnegative, cx - hw at most
W and cy - hh at most H) and nonnegative image dimensions, the clamped
bounds x1 = max(0, cx - hw), y1 = max(0, cy - hh), x2 = min(W, cx + hw),
y2 = min(H, cy + hh) satisfy 0 <= x1 <= x2 <= W and 0 <= y1 <= y2 <= H, and
a region extending past the left or top edge is clipped to the origin. -/
theorem C3_crop_bounds (W H : Int) (r : Region)
    (hW : 0 ≤ W) (hH : 0 ≤ H) (hhw : 0 ≤ r.hw) (hhh : 0 ≤ r.hh)
    (hx1 : -r.hw ≤ r.cx) (hx2 : r.cx - r.hw ≤ W)
    (hy1 : -r.hh ≤ r.cy) (hy2 : r.cy - r.hh ≤ H) :
    0 ≤ cropX1 r ∧ cropX1 r ≤ cropX2 W r ∧ cropX2 W r ≤ W ∧
    0 ≤ cropY1 r ∧ cropY1 r ≤ cropY2 H r ∧ cropY2 H r ≤ H ∧
    (r.cx - r.hw ≤ 0 → cropX1 r = 0) ∧ (r.cy - r.hh ≤ 0 → cropY1 r = 0) := by
  unfold cropX1 cropX2 cropY1 cropY2
  omega

/-- C3 witness: a region centered at the origin on a 5504 by 3072 image is
clipped to the [0, 0] corner and the bound chain holds. -/
theorem C3_crop_bounds_witness :
    (0 : Int) ≤ 5504 ∧ -regionOrigin.hw ≤ regionOrigin.cx ∧
    (0 ≤ cropX1 regionOrigin ∧ cropX1 regionOrigin ≤ cropX2 5504 regionOrigin ∧
     cropX2 5504 regionOrigin ≤ 5504 ∧
     0 ≤ cropY1 regionOrigin ∧ cropY1 regionOrigin ≤ cropY2 3072 regionOrigin ∧
     cropY2 3072 regionOrigin ≤ 3072 ∧
     (regionOrigin.cx - regionOrigin.hw ≤ 0 → cropX1 regionOrigin = 0) ∧
     (regionOrigin.cy - regionOrigin.hh ≤ 0 → cropY1 regionOrigin = 0)) :=
  ⟨by decide, by decide,
   C3_crop_bounds 5504 3072 regionOrigin (by decide) (by decide) (by decide)
     (by decide) (by decide) (by decide) (by decide) (by decide)⟩

/-- C4: background removal changes only the alpha channel: the pixel of the
pre-blur result at any position has the red, green and blue channels of the
input pixel there, and the same holds for the final result with the alpha
blur applied, for any blur kernel on the alpha plane. -/
theorem C4_alpha_only_mutation (blur : List (List Nat) → List (List Nat))
    (rows : Image) (y x : Nat) (p q qb : Pixel)
    (hp : getPixel rows y x = some p)
    (hq : getPixel (removeOceanPreBlur rows) y x = some q)
    (hqb : getPixel (removeOcean blur rows) y x = some qb) :
    (q.r = p.r ∧ q.g = p.g ∧ q.b = p.b) ∧
    (qb.r = p.r ∧ qb.g = p.g ∧ qb.b = p.b) := by
  have h1 : removeOceanPreBlur rows
      = rows.map (fun row => row.map (fun t =>
          if distSq2 t (oceanColor2 rows) < 7056 then { t with a := 0 } else t)) := rfl
  have hq2 : getPixel (removeOceanPreBlur rows) y x
      = some (if distSq2 p (oceanColor2 rows) < 7056 then { p with a := 0 } else p) := by
    rw [h1, getPixel_map_rows, hp]
    rfl
  have hqval : q = if distSq2 p (oceanColor2 rows) < 7056 then { p with a := 0 } else p := by
    have := hq2.symm.trans hq
    exact (Option.some.injEq _ _ ▸ this).symm
  have hqrgb : q.r = p.r ∧ q.g = p.g ∧ q.b = p.b := by
    rw [hqval]
    by_cases hc : distSq2 p (oceanColor2 rows) < 7056
    · simp [hc]
    · simp [hc]
  refine ⟨hqrgb, ?_⟩
  have h2 : removeOcean blur rows
      = putAlpha (removeOceanPreBlur rows) (blur (alphaPlane (removeOceanPreBlur rows))) := rfl
  rw [h2] at hqb
  unfold putAlpha getPixel at hqb
  rcases Option.bind_eq_some.mp hqb with ⟨rowOut, hrowOut, hcell⟩
  rcases getElem?_zipWith_some _ _ _ _ _ hrowOut with ⟨rowPre, rowAl, hrowPre, hrowAl, hrowEq⟩
  rw [hrowEq] at hcell
  rcases getElem?_zipWith_some _ _ _ _ _ hcell with ⟨pPre, v, hpPre, hv, hbEq⟩
  have hqpre : getPixel (removeOceanPreBlur rows) y x = some pPre := by
    unfold getPixel
    rw [hrowPre]
    exact hpPre
  have hpq : pPre = q := by
    have := hqpre.symm.trans hq
    exact Option.some.injEq _ _ ▸ this
  rw [hbEq, hpq]
  exact ⟨hqrgb.1, hqrgb.2.1, hqrgb.2.2⟩

/-- C4 witness: concrete evaluation on the 4 by 4 crop with the identity
kernel as the alpha blur. -/
theorem C4_alpha_only_mutation_witness :
    getPixel exampleCrop4 1 1 = some ⟨250, 10, 10, 255⟩ ∧
    (((⟨250, 10, 10, 255⟩ : Pixel).r = 250 ∧ (⟨250, 10, 10, 255⟩ : Pixel).g = 10 ∧
      (⟨250, 10, 10, 255⟩ : Pixel).b = 10) ∧
     ((⟨250, 10, 10, 255⟩ : Pixel).r = 250 ∧ (⟨250, 10, 10, 255⟩ : Pixel).g = 10 ∧
      (⟨250, 10, 10, 255⟩ : Pixel).b = 10)) := by
  refine ⟨by decide, ?_⟩
  have h := C4_alpha_only_mutation id exampleCrop4 1 1 ⟨250, 10, 10, 255⟩
    ⟨250, 10, 10, 255⟩ ⟨250, 10, 10, 255⟩ (by decide) (by decide) (by decide)
  exact h

/-- C5 counterexample: a 3 by 3 crop is degenerate for border sampling (the
border width is 0), and then the top, left and right edge groups are all
empty, contradicting the claim that every edge group keeps at least one
pixel; only the whole population stays nonempty, through the bottom slice
arr[-0:] degenerating to the whole crop. -/
theorem C5_counterexample :
    borderWidth exampleCrop3.length (width (rgbGrid exampleCrop3)) = 0 ∧
    topRowsSample 0 (rgbGrid exampleCrop3) = [] ∧
    leftColsSample 0 (rgbGrid exampleCrop3) = [] ∧
    rightColsSample 0 (rgbGrid exampleCrop3) = [] ∧
    edgePixels exampleCrop3 ≠ [] := by
  decide

/-- C5 amended: for every nonempty rectangular crop the total border sample
population is nonempty, so the median background color is always defined;
for crops less than 4 pixels tall or wide this is only because the bottom
slice arr[-0:] degenerates to the whole crop, the top, left and right
groups being empty there. -/
theorem C5_population_nonempty (rows : Image) (w : Nat)
    (hrows : rows ≠ []) (hw : ∀ row ∈ rows, row.length = w) (hw1 : 1 ≤ w) :
    edgePixels rows ≠ [] := by
  cases rows with
  | nil => exact absurd rfl hrows
  | cons r0 rest =>
    intro hcontra
    have hr0len : r0.length = w := hw r0 (List.mem_cons_self r0 rest)
    have hr0 : (r0.map rgbOf) ≠ [] := by
      intro h
      have : r0.length = 0 := by
        have := congrArg List.length h
        simpa using this
      omega
    have hsplit :
        topRowsSample (borderWidth (rgbGrid (r0 :: rest)).length
            (width (rgbGrid (r0 :: rest)))) (rgbGrid (r0 :: rest)) = [] ∧
        botRowsSample (borderWidth (rgbGrid (r0 :: rest)).length
            (width (rgbGrid (r0 :: rest)))) (rgbGrid (r0 :: rest)) = [] := by
      have h1 := hcontra
      simp only [edgePixels, edgeSample, List.append_eq_nil] at h1
      obtain ⟨⟨⟨ht, hbot⟩, hleft⟩, hright⟩ := h1
      exact ⟨ht, hbot⟩
    by_cases hb : borderWidth (rgbGrid (r0 :: rest)).length (width (rgbGrid (r0 :: rest))) = 0
    · have hbot := hsplit.2
      rw [hb] at hbot
      unfold botRowsSample takeLastPy at hbot
      rw [if_pos rfl] at hbot
      have hmem : (r0.map rgbOf) ∈ rgbGrid (r0 :: rest) := by
        simp [rgbGrid]
      exact flatten_ne_nil _ _ hmem hr0 hbot
    · have htop := hsplit.1
      unfold topRowsSample at htop
      have hmem : (r0.map rgbOf) ∈ (rgbGrid (r0 :: rest)).take
          (borderWidth (rgbGrid (r0 :: rest)).length (width (rgbGrid (r0 :: rest)))) := by
        have : rgbGrid (r0 :: rest) = (r0.map rgbOf) :: rgbGrid rest := rfl
        rw [this]
        cases hbv : borderWidth (rgbGrid (r0 :: rest)).length (width (rgbGrid (r0 :: rest))) with
        | zero => exact absurd hbv hb
        | succ k =>
          rw [this] at hbv
          rw [hbv]
          exact List.mem_cons_self _ _
      exact flatten_ne_nil _ _ hmem hr0 htop

/-- C5 witness: concrete evaluation on the 3 by 3 crop. -/
theorem C5_population_nonempty_witness :
    exampleCrop3 ≠ [] ∧ (1 : Nat) ≤ 3 ∧ edgePixels exampleCrop3 ≠ [] :=
  ⟨by decide, by decide,
   C5_population_nonempty exampleCrop3 3 (by decide) (by decide) (by decide)⟩

/-- C6 counterexample: the region named empty with half width 0 yields a
zero-area crop on the 2 by 2 example image, yet the pipeline does not skip
it: the region still contributes its output entry, remove_ocean being
applied to the empty crop unconditionally. -/
theorem C6_counterexample :
    cropW (width exampleImg2 : Int) regionDegenerate = 0 ∧
    cropImage exampleImg2 regionDegenerate = [[], []] ∧
    (pipelineOutputs id exampleImg2 [regionDegenerate]).map Prod.fst = ["empty"] := by
  decide

/-- C6 amended: the main loop has no empty-crop check: for every source
image, region list and blur kernel, every region unconditionally contributes
exactly one output entry, named after the region, whether or not its clamped
crop is empty; no region is ever skipped. -/
theorem C6_no_skip (blur : List (List Nat) → List (List Nat))
    (img : Image) (regions : List Region) :
    (pipelineOutputs blur img regions).map Prod.fst = regions.map Region.name := by
  simp [pipelineOutputs]

/-- C7: the pipeline is deterministic: two runs from the same source image,
region table and blur kernel produce equal per-region outputs, because the
whole transform is a pure function of those inputs (the script reads no
clock, randomness or other ambient state). -/
theorem C7_deterministic (blur : List (List Nat) → List (List Nat))
    (img : Image) (regions : List Region) (out1 out2 : List (String × Image))
    (h1 : out1 = pipelineOutputs blur img regions)
    (h2 : out2 = pipelineOutputs blur img regions) :
    out1 = out2 :=
  h1.trans h2.symm

/-- C7 witness: two concrete runs on the example image agree. -/
theorem C7_deterministic_witness :
    pipelineOutputs id exampleImg2 [regionMid] = pipelineOutputs id exampleImg2 [regionMid] :=
  C7_deterministic id exampleImg2 [regionMid]
    (pipelineOutputs id exampleImg2 [regionMid])
    (pipelineOutputs id exampleImg2 [regionMid]) rfl rfl

/-- C8: iteration order over the region table does not matter: a permuted
table yields a permuted output list, and every region contributes the same
entry, computed from the source image and its own rectangle alone, under
both orders. -/
theorem C8_order_independent (blur : List (List Nat) → List (List Nat))
    (img : Image) (rs1 rs2 : List Region) (r : Region)
    (hperm : rs1.Perm rs2) (hr : r ∈ rs1) :
    (pipelineOutputs blur img rs1).Perm (pipelineOutputs blur img rs2) ∧
    (r.name, processRegion blur img r) ∈ pipelineOutputs blur img rs1 ∧
    (r.name, processRegion blur img r) ∈ pipelineOutputs blur img rs2 := by
  unfold pipelineOutputs
  exact ⟨hperm.map _, List.mem_map_of_mem _ hr,
    List.mem_map_of_mem _ (hperm.subset hr)⟩

/-- C8 witness: concrete two-region table and its swap. -/
theorem C8_order_independent_witness :
    ([regionA, regionB].Perm [regionB, regionA]) ∧ regionA ∈ [regionA, regionB] ∧
    ((pipelineOutputs id exampleImg2 [regionA, regionB]).Perm
       (pipelineOutputs id exampleImg2 [regionB, regionA]) ∧
     (regionA.name, processRegion id exampleImg2 regionA) ∈
       pipelineOutputs id exampleImg2 [regionA, regionB] ∧
     (regionA.name, processRegion id exampleImg2 regionA) ∈
       pipelineOutputs id exampleImg2 [regionB, regionA]) :=
  ⟨by decide, by decide,
   C8_order_independent id exampleImg2 [regionA, regionB] [regionB, regionA] regionA
     (by decide) (by decide)⟩

/-- For a rectangular grid with enough rows and columns relative to the
border width, all four edge groups of the sampling are nonempty. -/
lemma edgeGroups_nonempty {α : Type} (g : List (List α)) (w b : Nat)
    (hg : ∀ l ∈ g, l.length = w) (hb : 1 ≤ b)
    (hh : 2 * b + 1 ≤ g.length) (hw2 : 2 * b + 1 ≤ w) :
    topRowsSample b g ≠ [] ∧ botRowsSample b g ≠ [] ∧
    leftColsSample b g ≠ [] ∧ rightColsSample b g ≠ [] := by
  have hbne : b ≠ 0 := by omega
  have hrow_ne : ∀ l ∈ g, l ≠ [] := by
    intro l hl hnil
    have hlen := hg l hl
    rw [hnil] at hlen
    simp at hlen
    omega
  refine ⟨?_, ?_, ?_, ?_⟩
  · cases g with
    | nil => simp at hh
    | cons r0 rest =>
      unfold topRowsSample
      have hmem : r0 ∈ (r0 :: rest).take b := by
        cases b with
        | zero => omega
        | succ k =>
          rw [List.take_succ_cons]
          exact List.mem_cons_self _ _
      exact flatten_ne_nil _ _ hmem (hrow_ne r0 (List.mem_cons_self r0 rest))
  · unfold botRowsSample takeLastPy
    rw [if_neg hbne]
    have hd : g.drop (g.length - b) ≠ [] := by
      rw [ne_eq, List.drop_eq_nil_iff]
      omega
    obtain ⟨y, ys, hys⟩ := List.exists_cons_of_ne_nil hd
    have hymem : y ∈ g.drop (g.length - b) := by
      rw [hys]
      exact List.mem_cons_self _ _
    exact flatten_ne_nil _ _ hymem (hrow_ne y (List.mem_of_mem_drop hymem))
  · unfold leftColsSample midSlicePy
    rw [if_neg hbne]
    have hm : (g.drop b).take (g.length - 2 * b) ≠ [] := by
      rw [ne_eq, List.take_eq_nil_iff]
      push_neg
      refine ⟨by omega, ?_⟩
      rw [ne_eq, List.drop_eq_nil_iff]
      omega
    obtain ⟨y, ys, hys⟩ := List.exists_cons_of_ne_nil hm
    have hymem : y ∈ (g.drop b).take (g.length - 2 * b) := by
      rw [hys]
      exact List.mem_cons_self _ _
    have hyg : y ∈ g := List.mem_of_mem_drop (List.mem_of_mem_take hymem)
    have hmem2 : y.take b ∈ ((g.drop b).take (g.length - 2 * b)).map (List.take b) :=
      List.mem_map_of_mem _ hymem
    have htb : y.take b ≠ [] := by
      rw [ne_eq, List.take_eq_nil_iff]
      push_neg
      exact ⟨hbne, hrow_ne y hyg⟩
    exact flatten_ne_nil _ _ hmem2 htb
  · unfold rightColsSample midSlicePy
    rw [if_neg hbne]
    have hm : (g.drop b).take (g.length - 2 * b) ≠ [] := by
      rw [ne_eq, List.take_eq_nil_iff]
      push_neg
      refine ⟨by omega, ?_⟩
      rw [ne_eq, List.drop_eq_nil_iff]
      omega
    obtain ⟨y, ys, hys⟩ := List.exists_cons_of_ne_nil hm
    have hymem : y ∈ (g.drop b).take (g.length - 2 * b) := by
      rw [hys]
      exact List.mem_cons_self _ _
    have hyg : y ∈ g := List.mem_of_mem_drop (List.mem_of_mem_take hymem)
    have hylen : y.length = w := hg y hyg
    have hmem2 : takeLastPy b y ∈ ((g.drop b).take (g.length - 2 * b)).map (takeLastPy b) :=
      List.mem_map_of_mem _ hymem
    have htb : takeLastPy b y ≠ [] := by
      unfold takeLastPy
      rw [if_neg hbne, ne_eq, List.drop_eq_nil_iff, hylen]
      omega
    exact flatten_ne_nil _ _ hmem2 htb

/-- A concrete crop with the dimensions the-laboratory produces on the
5504 by 3072 source image: 320 rows of 360 pixels. -/
def exampleLabCrop : Image :=
  List.replicate 320 (List.replicate 360 (⟨0, 0, 0, 255⟩ : Pixel))

/-- C9: every region of the hardcoded 17-entry table, applied to the
5504 by 3072 source image, yields a clamped crop at least 32 wide and tall,
so the border width is exactly 8 and all four edge groups as well as the
whole border population of any crop with those dimensions are nonempty:
the median background color is well-defined for every region processed. -/
theorem C9_islands_table_safe (r : Region) (hr : r ∈ ISLANDS) (rows : Image)
    (hlen : rows.length = (cropH 3072 r).toNat)
    (hwid : ∀ row ∈ rows, row.length = (cropW 5504 r).toNat) :
    32 ≤ cropW 5504 r ∧ 32 ≤ cropH 3072 r ∧
    borderWidth rows.length (width (rgbGrid rows)) = 8 ∧
    topRowsSample 8 (rgbGrid rows) ≠ [] ∧
    botRowsSample 8 (rgbGrid rows) ≠ [] ∧
    leftColsSample 8 (rgbGrid rows) ≠ [] ∧
    rightColsSample 8 (rgbGrid rows) ≠ [] ∧
    edgePixels rows ≠ [] := by
  have hnum : ∀ s ∈ ISLANDS, 32 ≤ cropW 5504 s ∧ 32 ≤ cropH 3072 s := by decide
  obtain ⟨hcw, hch⟩ := hnum r hr
  have hh32 : 32 ≤ (cropH 3072 r).toNat := by omega
  have hw32 : 32 ≤ (cropW 5504 r).toNat := by omega
  have hrows_ne : rows ≠ [] := by
    intro h
    rw [h] at hlen
    simp at hlen
    omega
  have hwidth : width rows = (cropW 5504 r).toNat := by
    cases rows with
    | nil => exact absurd rfl hrows_ne
    | cons r0 rest => exact hwid r0 (List.mem_cons_self r0 rest)
  have hgridlen : ∀ l ∈ rgbGrid rows, l.length = (cropW 5504 r).toNat := by
    intro l hl
    rcases List.mem_map.mp hl with ⟨row, hrow, hmap⟩
    rw [← hmap, List.length_map]
    exact hwid row hrow
  have hb : borderWidth rows.length (width (rgbGrid rows)) = 8 := by
    rw [width_rgbGrid, hwidth, hlen]
    unfold borderWidth
    omega
  have hgroups := edgeGroups_nonempty (rgbGrid rows) ((cropW 5504 r).toNat) 8
    hgridlen (by omega) (by rw [length_rgbGrid, hlen]; omega) (by omega)
  refine ⟨hcw, hch, hb, hgroups.1, hgroups.2.1, hgroups.2.2.1, hgroups.2.2.2, ?_⟩
  have hb2 : borderWidth (rgbGrid rows).length (width (rgbGrid rows)) = 8 := by
    rw [length_rgbGrid]
    exact hb
  have hES : edgePixels rows
      = topRowsSample 8 (rgbGrid rows) ++ botRowsSample 8 (rgbGrid rows) ++
        leftColsSample 8 (rgbGrid rows) ++ rightColsSample 8 (rgbGrid rows) := by
    simp only [edgePixels, edgeSample]
    rw [hb2]
  rw [hES]
  intro hc
  simp only [List.append_eq_nil] at hc
  exact hgroups.1 hc.1.1.1

set_option maxRecDepth 4000 in
/-- C9 witness: the-laboratory region with a crop of its exact output
dimensions. -/
theorem C9_islands_table_safe_witness :
    (⟨"the-laboratory", 1816, 830, 180, 160⟩ : Region) ∈ ISLANDS ∧
    (32 ≤ cropW 5504 ⟨"the-laboratory", 1816, 830, 180, 160⟩ ∧
     32 ≤ cropH 3072 ⟨"the-laboratory", 1816, 830, 180, 160⟩ ∧
     borderWidth exampleLabCrop.length (width (rgbGrid exampleLabCrop)) = 8 ∧
     topRowsSample 8 (rgbGrid exampleLabCrop) ≠ [] ∧
     botRowsSample 8 (rgbGrid exampleLabCrop) ≠ [] ∧
     leftColsSample 8 (rgbGrid exampleLabCrop) ≠ [] ∧
     rightColsSample 8 (rgbGrid exampleLabCrop) ≠ [] ∧
     edgePixels exampleLabCrop ≠ []) :=
  ⟨by decide,
   C9_islands_table_safe ⟨"the-laboratory", 1816, 830, 180, 160⟩ (by decide)
     exampleLabCrop (by decide)
     (fun row hrow => by rw [List.eq_of_mem_replicate hrow]; decide)⟩

/-- C10: the background mask is independent of the alpha channel: two crops
with identical RGB grids classify the pixel at any common position the same
way, and the pre-blur output alpha at any position is either 0 or the
original alpha of that pixel, never any other value. -/
theorem C10_mask_alpha_independent (rows1 rows2 : Image) (y x : Nat)
    (p1 p2 q : Pixel)
    (hrgb : rgbGrid rows1 = rgbGrid rows2)
    (h1 : getPixel rows1 y x = some p1)
    (h2 : getPixel rows2 y x = some p2)
    (hq : getPixel (removeOceanPreBlur rows1) y x = some q) :
    isOceanPixel rows1 p1 = isOceanPixel rows2 p2 ∧ (q.a = 0 ∨ q.a = p1.a) := by
  have hocean : oceanColor2 rows1 = oceanColor2 rows2 := by
    unfold oceanColor2 edgePixels
    rw [hrgb]
  have hrgb_p : rgbOf p1 = rgbOf p2 := by
    have hy := congrArg (fun L => L[y]?) hrgb
    simp only [rgbGrid, List.getElem?_map] at hy
    unfold getPixel at h1 h2
    rcases Option.bind_eq_some.mp h1 with ⟨row1, hrow1, hp1⟩
    rcases Option.bind_eq_some.mp h2 with ⟨row2, hrow2, hp2⟩
    rw [hrow1, hrow2] at hy
    simp only [Option.map_some'] at hy
    have hrowEq : row1.map rgbOf = row2.map rgbOf := by
      exact Option.some.injEq _ _ ▸ hy
    have hx := congrArg (fun L => L[x]?) hrowEq
    simp only [List.getElem?_map] at hx
    rw [hp1, hp2] at hx
    simpa using hx
  have hcomp : p1.r = p2.r ∧ p1.g = p2.g ∧ p1.b = p2.b := by
    unfold rgbOf at hrgb_p
    exact ⟨congrArg (fun t => t.1) hrgb_p, congrArg (fun t => t.2.1) hrgb_p,
      congrArg (fun t => t.2.2) hrgb_p⟩
  have hdist : distSq2 p1 (oceanColor2 rows1) = distSq2 p2 (oceanColor2 rows2) := by
    unfold distSq2
    rw [hocean, hcomp.1, hcomp.2.1, hcomp.2.2]
  constructor
  · unfold isOceanPixel
    rw [hdist]
  · have hq2 : getPixel (removeOceanPreBlur rows1) y x
        = some (if distSq2 p1 (oceanColor2 rows1) < 7056 then { p1 with a := 0 } else p1) := by
      have hrw : removeOceanPreBlur rows1
          = rows1.map (fun row => row.map (fun t =>
              if distSq2 t (oceanColor2 rows1) < 7056 then { t with a := 0 } else t)) := rfl
      rw [hrw, getPixel_map_rows, h1]
      rfl
    have hqv : q = if distSq2 p1 (oceanColor2 rows1) < 7056 then { p1 with a := 0 } else p1 := by
      have := hq2.symm.trans hq
      exact (Option.some.injEq _ _ ▸ this).symm
    rw [hqv]
    by_cases hc : distSq2 p1 (oceanColor2 rows1) < 7056
    · left
      simp [hc]
    · right
      simp [hc]

/-- C10 witness: the 4 by 4 crop against its copy with scrambled alphas. -/
theorem C10_mask_alpha_independent_witness :
    rgbGrid exampleCrop4 = rgbGrid exampleCrop4Alpha ∧
    (isOceanPixel exampleCrop4 ⟨100, 100, 100, 255⟩
       = isOceanPixel exampleCrop4Alpha ⟨100, 100, 100, 128⟩ ∧
     ((⟨100, 100, 100, 0⟩ : Pixel).a = 0 ∨
      (⟨100, 100, 100, 0⟩ : Pixel).a = (⟨100, 100, 100, 255⟩ : Pixel).a)) :=
  ⟨by decide,
   C10_mask_alpha_independent exampleCrop4 exampleCrop4Alpha 0 0
     ⟨100, 100, 100, 255⟩ ⟨100, 100, 100, 128⟩ ⟨100, 100, 100, 0⟩
     (by decide) (by decide) (by decide) (by decide)⟩
